import Mathlib

/-
Verification of the css-beziers cubic Bézier timing-function engine
(src/css-beziers.js) against its specification.

The JavaScript numbers are modelled as exact rationals (ℚ).  Where the
code's behaviour on non-finite IEEE values matters (the `isFinite(epsilon)`
check in `_getTForCoordinate`, and division by zero in `divideAtT`'s
re-normalization), values are wrapped in `JSNum`, which adds the three
non-finite doubles (+Infinity, -Infinity, NaN) to the finite rationals.
All range checks `!(x >= 0 && x <= 1)` fail for each of the three
non-finite values, exactly as in JavaScript.

The bisection loop `while (t0 < t1) { ... }` of `_getTForCoordinate`
terminates in floating point only through rounding; in exact arithmetic it
is modelled with an explicit fuel parameter, and exhausted fuel returns the
current estimate `t2`, mirroring the code's final `return t2;`.
-/

namespace CssBeziers

/-- A JavaScript number: a finite double (modelled as an exact rational) or
one of the three non-finite values. -/
inductive JSNum where
  | num (q : ℚ)
  | posInf
  | negInf
  | nan
deriving DecidableEq

/-- JavaScript's `isFinite`. -/
def JSNum.isFinite : JSNum → Bool
  | .num _ => true
  | _ => false

/-- Underlying rational of a finite `JSNum` (junk value 0 otherwise; only
used after a finiteness check has succeeded). -/
def JSNum.toRat : JSNum → ℚ
  | .num q => q
  | _ => 0

/-- JavaScript division of two finite numbers: finite quotient when the
divisor is nonzero, otherwise sign-dependent Infinity (or NaN for 0/0). -/
def jsDiv (a b : ℚ) : JSNum :=
  if b = 0 then
    if 0 < a then .posInf else if a < 0 then .negInf else .nan
  else .num (a / b)

/-- A constructed curve: the two interior control points (endpoints (0,0)
and (1,1) are implicit).  Mirrors the `_p1x .. _p2y` fields. -/
structure CubicBezier where
  p1x : ℚ
  p1y : ℚ
  p2x : ℚ
  p2y : ℚ
deriving DecidableEq

/-- The only error the code throws: `RangeError`, identifying the offending
parameter and the value it received. -/
inductive CBError where
  | outOfRange (param : String) (value : JSNum)
deriving DecidableEq

/-- The constructor's per-argument guard `p >= 0 && p <= 1` (false for every
non-finite value, as in JavaScript). -/
def coordInRange : JSNum → Bool
  | .num q => decide (0 ≤ q) && decide (q ≤ 1)
  | _ => false

/-- `new CubicBezier(p1x, p1y, p2x, p2y)` on arbitrary JavaScript numbers:
checks the four arguments in order and throws `RangeError` at the first one
outside [0,1]. -/
def newCubicBezierJS (a b c d : JSNum) : Except CBError CubicBezier :=
  if ¬ coordInRange a then .error (.outOfRange "p1x" a)
  else if ¬ coordInRange b then .error (.outOfRange "p1y" b)
  else if ¬ coordInRange c then .error (.outOfRange "p2x" c)
  else if ¬ coordInRange d then .error (.outOfRange "p2y" d)
  else .ok ⟨a.toRat, b.toRat, c.toRat, d.toRat⟩

/-- The constructor applied to finite numbers. -/
def newCubicBezier (a b c d : ℚ) : Except CBError CubicBezier :=
  newCubicBezierJS (.num a) (.num b) (.num c) (.num d)

/-- The construction invariant: all four control coordinates in [0,1]. -/
def ValidCurve (cb : CubicBezier) : Prop :=
  (0 ≤ cb.p1x ∧ cb.p1x ≤ 1) ∧ (0 ≤ cb.p1y ∧ cb.p1y ≤ 1) ∧
  (0 ≤ cb.p2x ∧ cb.p2x ≤ 1) ∧ (0 ≤ cb.p2y ∧ cb.p2y ≤ 1)

instance (cb : CubicBezier) : Decidable (ValidCurve cb) := by
  unfold ValidCurve; infer_instance

/-- `_getCoordinateForT(t, p1, p2)`: Horner evaluation of the cubic. -/
def getCoordinateForT (t p1 p2 : ℚ) : ℚ :=
  let c := 3 * p1
  let b := 3 * (p2 - p1) - c
  let a := 1 - c - b
  ((a * t + b) * t + c) * t

/-- `_getCoordinateDerivateForT(t, p1, p2)`: derivative of the cubic. -/
def getCoordinateDerivateForT (t p1 p2 : ℚ) : ℚ :=
  let c := 3 * p1
  let b := 3 * (p2 - p1) - c
  let a := 1 - c - b
  (3 * a * t + 2 * b) * t + c

/-- The fixed `1e-6` derivative guard of the Newton phase. -/
def newtonGuard : ℚ := 1 / 1000000

/-- The Newton loop of `_getTForCoordinate`: at most `n` iterations from
estimate `t2`; `some t` models `return t`, `none` models falling through
to the bisection phase (loop exhausted or derivative below the guard). -/
def newtonPhase (p1 p2 c eps : ℚ) : Nat → ℚ → Option ℚ
  | 0, _ => none
  | n + 1, t2 =>
    let c2 := getCoordinateForT t2 p1 p2 - c
    if |c2| < eps then some t2
    else
      let d2 := getCoordinateDerivateForT t2 p1 p2
      if |d2| < newtonGuard then none
      else newtonPhase p1 p2 c eps n (t2 - c2 / d2)

/-- The bisection loop of `_getTForCoordinate` (`while (t0 < t1)`), with a
fuel parameter standing in for the floating-point rounding that ends the
loop; exhausted fuel (and a failed loop condition) return the current
estimate `t2`. -/
def bisectionPhase (p1 p2 c eps : ℚ) : Nat → ℚ → ℚ → ℚ → ℚ
  | 0, _, _, t2 => t2
  | n + 1, t0, t1, t2 =>
    if t0 < t1 then
      let c2 := getCoordinateForT t2 p1 p2
      if |c2 - c| < eps then t2
      else if c > c2 then bisectionPhase p1 p2 c eps n t2 t1 ((t1 - t2) * (1 / 2) + t2)
      else bisectionPhase p1 p2 c eps n t0 t2 ((t2 - t0) * (1 / 2) + t0)
    else t2

/-- `_getTForCoordinate(c, p1, p2, epsilon)`: epsilon guard, Newton phase
(8 iterations seeded with c), then bisection reseeded with c, clamped to
[0,1] when c lies outside. -/
def getTForCoordinate (c p1 p2 : ℚ) (eps : JSNum) (fuel : Nat) : Except CBError ℚ :=
  match eps with
  | .num e =>
    if e ≤ 0 then .error (.outOfRange "epsilon" eps)
    else
      match newtonPhase p1 p2 c e 8 c with
      | some t2 => .ok t2
      | none =>
        let t2 := c
        if t2 < 0 then .ok 0
        else if t2 > 1 then .ok 1
        else .ok (bisectionPhase p1 p2 c e fuel 0 1 t2)
  | _ => .error (.outOfRange "epsilon" eps)

/-- `getTforX(x, epsilon)`. -/
def getTforX (cb : CubicBezier) (x : ℚ) (eps : JSNum) (fuel : Nat) : Except CBError ℚ :=
  getTForCoordinate x cb.p1x cb.p2x eps fuel

/-- `getTforY(y, epsilon)`. -/
def getTforY (cb : CubicBezier) (y : ℚ) (eps : JSNum) (fuel : Nat) : Except CBError ℚ :=
  getTForCoordinate y cb.p1y cb.p2y eps fuel

/-- `getPointForT(t)`: exact endpoints at t = 0 and t = 1, `RangeError`
outside (0,1), otherwise per-axis Horner evaluation. -/
def getPointForT (cb : CubicBezier) (t : ℚ) : Except CBError (ℚ × ℚ) :=
  if t = 0 ∨ t = 1 then .ok (t, t)
  else if ¬ (0 < t) ∨ ¬ (t < 1) then .error (.outOfRange "t" (.num t))
  else .ok (getCoordinateForT t cb.p1x cb.p2x, getCoordinateForT t cb.p1y cb.p2y)

/-- The twelve scalars returned by `_getAuxPoints` (array indices 0..11). -/
structure AuxPoints where
  i0x : ℚ
  i0y : ℚ
  i1x : ℚ
  i1y : ℚ
  i2x : ℚ
  i2y : ℚ
  j0x : ℚ
  j0y : ℚ
  j1x : ℚ
  j1y : ℚ
  kx : ℚ
  ky : ℚ
deriving DecidableEq

/-- The De Casteljau interpolations of `_getAuxPoints` (without its range
check, which `getAuxPoints` adds). -/
def auxPoints (cb : CubicBezier) (t : ℚ) : AuxPoints :=
  let i0x := t * cb.p1x
  let i0y := t * cb.p1y
  let i1x := cb.p1x + t * (cb.p2x - cb.p1x)
  let i1y := cb.p1y + t * (cb.p2y - cb.p1y)
  let i2x := cb.p2x + t * (1 - cb.p2x)
  let i2y := cb.p2y + t * (1 - cb.p2y)
  let j0x := i0x + t * (i1x - i0x)
  let j0y := i0y + t * (i1y - i0y)
  let j1x := i1x + t * (i2x - i1x)
  let j1y := i1y + t * (i2y - i1y)
  let kx := j0x + t * (j1x - j0x)
  let ky := j0y + t * (j1y - j0y)
  ⟨i0x, i0y, i1x, i1y, i2x, i2y, j0x, j0y, j1x, j1y, kx, ky⟩

/-- `_getAuxPoints(t)`: requires 0 < t < 1. -/
def getAuxPoints (cb : CubicBezier) (t : ℚ) : Except CBError AuxPoints :=
  if ¬ (0 < t) ∨ ¬ (t < 1) then .error (.outOfRange "t" (.num t))
  else .ok (auxPoints cb t)

/-- `CubicBezier.linear()` (the later, effective definition in the file):
`new CubicBezier(0.0, 0.0, 1.0, 1.0)`. -/
def linear : CubicBezier := ⟨0, 0, 1, 1⟩

/-- `clone()`: re-runs the constructor on the curve's own control points. -/
def clone (cb : CubicBezier) : Except CBError CubicBezier :=
  newCubicBezier cb.p1x cb.p1y cb.p2x cb.p2y

/-- `divideAtT(t)`: range check, boundary special cases (linear curve plus
clone), otherwise De Casteljau points, re-normalization by the division
point (JavaScript division) and construction of the two sub-curves. -/
def divideAtT (cb : CubicBezier) (t : ℚ) : Except CBError (CubicBezier × CubicBezier) :=
  if t < 0 ∨ t > 1 then .error (.outOfRange "t" (.num t))
  else if t = 0 ∨ t = 1 then
    match clone cb with
    | .error e => .error e
    | .ok c => if t = 0 then .ok (linear, c) else .ok (c, linear)
  else
    match getAuxPoints cb t with
    | .error e => .error e
    | .ok p =>
      let kx := p.kx
      let ky := p.ky
      match newCubicBezierJS (jsDiv p.i0x kx) (jsDiv p.i0y ky)
          (jsDiv p.j0x kx) (jsDiv p.j0y ky) with
      | .error e => .error e
      | .ok leftCurve =>
        match newCubicBezierJS (jsDiv (p.j1x - kx) (1 - kx)) (jsDiv (p.j1y - ky) (1 - ky))
            (jsDiv (p.i2x - kx) (1 - kx)) (jsDiv (p.i2y - ky) (1 - ky)) with
        | .error e => .error e
        | .ok rightCurve => .ok (leftCurve, rightCurve)



lemma getCoordinateForT_bernstein (t p1 p2 : ℚ) :
    getCoordinateForT t p1 p2 = 3*p1*t*(1-t)^2 + 3*p2*t^2*(1-t) + t^3 := by
  simp only [getCoordinateForT]
  ring

lemma auxPoints_kx_eq (cb : CubicBezier) (t : ℚ) :
    (auxPoints cb t).kx = getCoordinateForT t cb.p1x cb.p2x := by
  simp only [auxPoints, getCoordinateForT]
  ring

lemma auxPoints_ky_eq (cb : CubicBezier) (t : ℚ) :
    (auxPoints cb t).ky = getCoordinateForT t cb.p1y cb.p2y := by
  simp only [auxPoints, getCoordinateForT]
  ring

lemma getCoordinateForT_bounds (p1 p2 t : ℚ) (hp0 : 0 ≤ p1) (hp1 : p1 ≤ 1)
    (hq0 : 0 ≤ p2) (hq1 : p2 ≤ 1) (h0 : 0 < t) (h1 : t < 1) :
    0 < getCoordinateForT t p1 p2 ∧ getCoordinateForT t p1 p2 < 1 := by
  rw [getCoordinateForT_bernstein]
  have h1t : (0:ℚ) < 1 - t := by linarith
  constructor
  · nlinarith [mul_nonneg (mul_nonneg hp0 h0.le) (sq_nonneg (1 - t)),
      mul_nonneg (mul_nonneg hq0 (mul_nonneg h0.le h0.le)) h1t.le,
      pow_pos h0 3]
  · nlinarith [mul_nonneg (mul_nonneg (sub_nonneg.mpr hp1) h0.le) (sq_nonneg (1 - t)),
      mul_nonneg (mul_nonneg (sub_nonneg.mpr hq1) (mul_nonneg h0.le h0.le)) h1t.le,
      pow_pos h1t 3]

lemma coordInRange_num (q : ℚ) : coordInRange (.num q) = true ↔ 0 ≤ q ∧ q ≤ 1 := by
  simp [coordInRange]

lemma coordInRange_toRat {v : JSNum} (h : coordInRange v = true) :
    0 ≤ v.toRat ∧ v.toRat ≤ 1 ∧ v = .num v.toRat := by
  cases v <;> simp_all [coordInRange, JSNum.toRat]

lemma clone_ok (cb : CubicBezier) (hv : ValidCurve cb) : clone cb = .ok cb := by
  obtain ⟨⟨h1, h2⟩, ⟨h3, h4⟩, ⟨h5, h6⟩, ⟨h7, h8⟩⟩ := hv
  simp [clone, newCubicBezier, newCubicBezierJS, coordInRange, JSNum.toRat,
    h1, h2, h3, h4, h5, h6, h7, h8]

lemma newCubicBezierJS_ok_valid {a b c d : JSNum} {cb : CubicBezier}
    (h : newCubicBezierJS a b c d = .ok cb) : ValidCurve cb := by
  unfold newCubicBezierJS at h
  split_ifs at h with h1 h2 h3 h4
  · obtain ⟨ha0, ha1, -⟩ := coordInRange_toRat h1
    obtain ⟨hb0, hb1, -⟩ := coordInRange_toRat h2
    obtain ⟨hc0, hc1, -⟩ := coordInRange_toRat h3
    obtain ⟨hd0, hd1, -⟩ := coordInRange_toRat h4
    obtain rfl : CubicBezier.mk a.toRat b.toRat c.toRat d.toRat = cb := by
      injection h
    exact ⟨⟨ha0, ha1⟩, ⟨hb0, hb1⟩, ⟨hc0, hc1⟩, ⟨hd0, hd1⟩⟩

lemma getTForCoordinate_num_ok (c p1 p2 e : ℚ) (fuel : Nat) (he : ¬ e ≤ 0) :
    ∃ t2, getTForCoordinate c p1 p2 (.num e) fuel = .ok t2 := by
  unfold getTForCoordinate
  dsimp only
  rw [if_neg he]
  rcases hN : newtonPhase p1 p2 c e 8 c with _ | t
  · simp only [hN]
    split_ifs <;> exact ⟨_, rfl⟩
  · exact ⟨t, by simp [hN]⟩

/-- C1: for every valid curve and t strictly between 0 and 1, getPointForT
returns per axis the Horner-form cubic with coefficients c = 3 p1,
b = 3 (p2 - p1) - c, a = 1 - c - b derived from that axis. -/
theorem claim_C1 (cb : CubicBezier) (t : ℚ) (hv : ValidCurve cb)
    (h0 : 0 < t) (h1 : t < 1) :
    getPointForT cb t =
      Except.ok
        (let cX := 3 * cb.p1x
         let bX := 3 * (cb.p2x - cb.p1x) - cX
         let aX := 1 - cX - bX
         ((aX * t + bX) * t + cX) * t,
         let cY := 3 * cb.p1y
         let bY := 3 * (cb.p2y - cb.p1y) - cY
         let aY := 1 - cY - bY
         ((aY * t + bY) * t + cY) * t) := by
  have hne : ¬ (t = 0 ∨ t = 1) := by
    rintro (rfl | rfl) <;> linarith
  have hcond : ¬ (¬ (0 < t) ∨ ¬ (t < 1)) := by
    push_neg
    exact ⟨h0, h1⟩
  simp only [getPointForT, if_neg hne, if_neg hcond]
  rfl

theorem claim_C1_w :
    getPointForT linear (1/2) =
      Except.ok
        (let cX := 3 * linear.p1x
         let bX := 3 * (linear.p2x - linear.p1x) - cX
         let aX := 1 - cX - bX
         ((aX * (1/2) + bX) * (1/2) + cX) * (1/2),
         let cY := 3 * linear.p1y
         let bY := 3 * (linear.p2y - linear.p1y) - cY
         let aY := 1 - cY - bY
         ((aY * (1/2) + bY) * (1/2) + cY) * (1/2)) :=
  claim_C1 linear (1/2) (by norm_num [ValidCurve, linear]) (by norm_num) (by norm_num)

/-- C2: the De Casteljau division point k = j0 + t (j1 - j0) of the
subdivision routine equals, per axis, the cubic polynomial evaluation. -/
theorem claim_C2 (cb : CubicBezier) (t : ℚ) (hv : ValidCurve cb)
    (h0 : 0 < t) (h1 : t < 1) :
    (auxPoints cb t).kx = getCoordinateForT t cb.p1x cb.p2x ∧
    (auxPoints cb t).ky = getCoordinateForT t cb.p1y cb.p2y :=
  ⟨auxPoints_kx_eq cb t, auxPoints_ky_eq cb t⟩

theorem claim_C2_w :
    (auxPoints linear (1/2)).kx = getCoordinateForT (1/2) linear.p1x linear.p2x ∧
    (auxPoints linear (1/2)).ky = getCoordinateForT (1/2) linear.p1y linear.p2y :=
  claim_C2 linear (1/2) (by norm_num [ValidCurve, linear]) (by norm_num) (by norm_num)

/-- C3: for positive epsilon the root finder runs the Newton phase seeded
with t = c for at most 8 iterations before the bisection fallback; each
iteration returns t when the residual is within epsilon, abandons Newton
(falls through) when the derivative magnitude is below the 1e-6 guard,
and otherwise updates t by the Newton step t - residual/derivative. -/
theorem claim_C3 (p1 p2 c e : ℚ) (fuel : Nat) (he : 0 < e) :
    (getTForCoordinate c p1 p2 (JSNum.num e) fuel =
      match newtonPhase p1 p2 c e 8 c with
      | some t2 => Except.ok t2
      | none =>
        if c < 0 then Except.ok 0
        else if c > 1 then Except.ok 1
        else Except.ok (bisectionPhase p1 p2 c e fuel 0 1 c)) ∧
    (∀ (n : Nat) (t2 : ℚ), |getCoordinateForT t2 p1 p2 - c| < e →
      newtonPhase p1 p2 c e (n + 1) t2 = some t2) ∧
    (∀ (n : Nat) (t2 : ℚ), ¬ |getCoordinateForT t2 p1 p2 - c| < e →
      |getCoordinateDerivateForT t2 p1 p2| < newtonGuard →
      newtonPhase p1 p2 c e (n + 1) t2 = none) ∧
    (∀ (n : Nat) (t2 : ℚ), ¬ |getCoordinateForT t2 p1 p2 - c| < e →
      ¬ |getCoordinateDerivateForT t2 p1 p2| < newtonGuard →
      newtonPhase p1 p2 c e (n + 1) t2 =
        newtonPhase p1 p2 c e n
          (t2 - (getCoordinateForT t2 p1 p2 - c) / getCoordinateDerivateForT t2 p1 p2)) ∧
    newtonGuard = 1 / 1000000 := by
  refine ⟨?_, ?_, ?_, ?_, rfl⟩
  · unfold getTForCoordinate
    dsimp only
    rw [if_neg (not_le.mpr he)]
  · intro n t2 h
    simp [newtonPhase, h]
  · intro n t2 h h'
    simp [newtonPhase, h, h']
  · intro n t2 h h'
    simp [newtonPhase, h, h']

theorem claim_C3_w : newtonGuard = 1 / 1000000 :=
  (claim_C3 0 0 0 1 0 (by norm_num)).2.2.2.2

/-- C4: the root finder raises OutOfRange exactly when epsilon is not
finite or not positive; for finite positive epsilon it always returns a
number, and when the tolerance is never met (exhausted loop) the current
estimate t2 is returned rather than an error. -/
theorem claim_C4 (c p1 p2 : ℚ) (eps : JSNum) (fuel : Nat) :
    ((∃ er, getTForCoordinate c p1 p2 eps fuel = .error er) ↔
      eps.isFinite = false ∨ ∃ q, eps = JSNum.num q ∧ q ≤ 0) ∧
    (∀ q : ℚ, eps = JSNum.num q → 0 < q →
      ∃ t2, getTForCoordinate c p1 p2 eps fuel = .ok t2) ∧
    (∀ (e t0 t1 t2 : ℚ), bisectionPhase p1 p2 c e 0 t0 t1 t2 = t2) ∧
    (∀ (e : ℚ) (n : Nat) (t0 t1 t2 : ℚ), ¬ t0 < t1 →
      bisectionPhase p1 p2 c e (n + 1) t0 t1 t2 = t2) := by
  refine ⟨?_, ?_, fun e t0 t1 t2 => rfl, ?_⟩
  · cases eps with
    | num e =>
      by_cases he : e ≤ 0
      · constructor
        · intro _
          exact Or.inr ⟨e, rfl, he⟩
        · intro _
          exact ⟨CBError.outOfRange "epsilon" (JSNum.num e),
            by simp [getTForCoordinate, he]⟩
      · obtain ⟨t2, ht2⟩ := getTForCoordinate_num_ok c p1 p2 e fuel he
        constructor
        · rintro ⟨er, her⟩
          rw [ht2] at her
          exact absurd her (by simp)
        · rintro (hf | ⟨q, hq, hq'⟩)
          · exact absurd hf (by simp [JSNum.isFinite])
          · obtain rfl : e = q := by injection hq
            exact absurd hq' he
    | posInf => exact ⟨fun _ => Or.inl rfl, fun _ => ⟨_, rfl⟩⟩
    | negInf => exact ⟨fun _ => Or.inl rfl, fun _ => ⟨_, rfl⟩⟩
    | nan => exact ⟨fun _ => Or.inl rfl, fun _ => ⟨_, rfl⟩⟩
  · rintro q rfl hq
    exact getTForCoordinate_num_ok c p1 p2 q fuel (not_le.mpr hq)
  · intro e n t0 t1 t2 h
    simp [bisectionPhase, h]

theorem claim_C4_w :
    ∃ t2, getTForCoordinate (1/2) 0 0 (JSNum.num (1/10)) 3 = .ok t2 :=
  (claim_C4 (1/2) 0 0 (JSNum.num (1/10)) 3).2.1 (1/10) rfl (by norm_num)

/-- C5: the constructor succeeds exactly when all four arguments lie in
[0,1]; on failure the RangeError identifies an offending parameter and the
value it received. -/
theorem claim_C5 (a b c d : ℚ) :
    ((∃ cb, newCubicBezier a b c d = .ok cb) ↔
      (0 ≤ a ∧ a ≤ 1) ∧ (0 ≤ b ∧ b ≤ 1) ∧ (0 ≤ c ∧ c ≤ 1) ∧ (0 ≤ d ∧ d ≤ 1)) ∧
    (∀ er, newCubicBezier a b c d = .error er →
      ∃ nm v, er = CBError.outOfRange nm (JSNum.num v) ∧ ¬ (0 ≤ v ∧ v ≤ 1) ∧
        ((nm = "p1x" ∧ v = a) ∨ (nm = "p1y" ∧ v = b) ∨
         (nm = "p2x" ∧ v = c) ∨ (nm = "p2y" ∧ v = d))) := by
  constructor
  · constructor
    · rintro ⟨cb, hcb⟩
      unfold newCubicBezier newCubicBezierJS at hcb
      split_ifs at hcb with h1 h2 h3 h4
      rw [coordInRange_num] at h1 h2 h3 h4
      exact ⟨h1, h2, h3, h4⟩
    · rintro ⟨ha, hb, hc, hd⟩
      refine ⟨⟨a, b, c, d⟩, ?_⟩
      unfold newCubicBezier newCubicBezierJS
      rw [if_neg (by rw [not_not, coordInRange_num]; exact ha),
        if_neg (by rw [not_not, coordInRange_num]; exact hb),
        if_neg (by rw [not_not, coordInRange_num]; exact hc),
        if_neg (by rw [not_not, coordInRange_num]; exact hd)]
      rfl
  · intro er her
    unfold newCubicBezier newCubicBezierJS at her
    split_ifs at her with h1 h2 h3 h4
    · rw [coordInRange_num] at h4
      obtain rfl : CBError.outOfRange "p2y" (JSNum.num d) = er := by injection her
      exact ⟨"p2y", d, rfl, h4, Or.inr (Or.inr (Or.inr ⟨rfl, rfl⟩))⟩
    · rw [coordInRange_num] at h3
      obtain rfl : CBError.outOfRange "p2x" (JSNum.num c) = er := by injection her
      exact ⟨"p2x", c, rfl, h3, Or.inr (Or.inr (Or.inl ⟨rfl, rfl⟩))⟩
    · rw [coordInRange_num] at h2
      obtain rfl : CBError.outOfRange "p1y" (JSNum.num b) = er := by injection her
      exact ⟨"p1y", b, rfl, h2, Or.inr (Or.inl ⟨rfl, rfl⟩)⟩
    · rw [coordInRange_num] at h1
      obtain rfl : CBError.outOfRange "p1x" (JSNum.num a) = er := by injection her
      exact ⟨"p1x", a, rfl, h1, Or.inl ⟨rfl, rfl⟩⟩

theorem claim_C5_w :
    (∃ cb, newCubicBezier 0 0 1 1 = .ok cb) ∧
    (∀ cb, ¬ newCubicBezier (-(1/10)) (1/2) (1/2) (1/2) = .ok cb) :=
  ⟨(claim_C5 0 0 1 1).1.mpr (by norm_num),
   fun cb h => by
     have := (claim_C5 (-(1/10)) (1/2) (1/2) (1/2)).1.mp ⟨cb, h⟩
     norm_num at this⟩

/-- C6 counterexample: the linear preset evaluated at t = 1/4 yields
(5/32, 5/32), not (1/4, 1/4) — the parametrization of the preset
cubic-bezier(0,0,1,1) is not the identity. -/
theorem claim_C6_cex :
    getPointForT linear (1/4) = Except.ok (5/32, 5/32) ∧ (5/32 : ℚ) ≠ 1/4 := by
  constructor
  · norm_num [getPointForT, getCoordinateForT, linear]
  · norm_num

/-- C6 amended: for every t in [0,1] the linear preset's point has equal
x and y coordinates, both 3 t^2 - 2 t^3, so the point lies on the diagonal
y = x; the parameter-to-point map itself is not the identity. -/
theorem claim_C6_amended (t : ℚ) (h0 : 0 ≤ t) (h1 : t ≤ 1) :
    getPointForT linear t = Except.ok (3*t^2 - 2*t^3, 3*t^2 - 2*t^3) := by
  by_cases ht0 : t = 0
  · subst ht0
    norm_num [getPointForT]
  by_cases ht1 : t = 1
  · subst ht1
    norm_num [getPointForT]
  · have hne : ¬ (t = 0 ∨ t = 1) := by tauto
    have hcond : ¬ (¬ (0 < t) ∨ ¬ (t < 1)) := by
      push_neg
      exact ⟨lt_of_le_of_ne h0 (Ne.symm ht0), lt_of_le_of_ne h1 ht1⟩
    simp only [getPointForT, if_neg hne, if_neg hcond, Except.ok.injEq, Prod.mk.injEq]
    constructor <;> (simp only [getCoordinateForT, linear]; ring)

theorem claim_C6_w :
    getPointForT linear (1/2) =
      Except.ok (3*(1/2)^2 - 2*(1/2)^3, 3*(1/2)^2 - 2*(1/2)^3) :=
  claim_C6_amended (1/2) (by norm_num) (by norm_num)

/-- C7: for every valid curve, the endpoints are returned exactly
((0,0) at t = 0 and (1,1) at t = 1, bypassing the polynomial), and any t
outside [0,1] raises the RangeError for t. -/
theorem claim_C7 (cb : CubicBezier) (hv : ValidCurve cb) :
    getPointForT cb 0 = .ok (0, 0) ∧
    getPointForT cb 1 = .ok (1, 1) ∧
    (∀ t : ℚ, t < 0 ∨ 1 < t →
      getPointForT cb t = .error (CBError.outOfRange "t" (JSNum.num t))) := by
  refine ⟨by norm_num [getPointForT], by norm_num [getPointForT], ?_⟩
  intro t ht
  have hne : ¬ (t = 0 ∨ t = 1) := by
    rcases ht with h | h <;> rintro (rfl | rfl) <;> linarith
  have hcond : ¬ (0 < t) ∨ ¬ (t < 1) := by
    rcases ht with h | h
    · exact Or.inl (by linarith)
    · exact Or.inr (by linarith)
  simp only [getPointForT, if_neg hne, if_pos hcond]

theorem claim_C7_w : getPointForT linear 0 = .ok (0, 0) :=
  (claim_C7 linear (by norm_num [ValidCurve, linear])).1

/-- C8: divideAtT raises the RangeError for t outside [0,1]; at t = 0 it
returns the linear curve on the left and a clone of the original on the
right, at t = 1 the clone on the left and the linear curve on the right,
with no De Casteljau division. -/
theorem claim_C8 (cb : CubicBezier) (hv : ValidCurve cb) :
    (∀ t : ℚ, t < 0 ∨ 1 < t →
      divideAtT cb t = .error (CBError.outOfRange "t" (JSNum.num t))) ∧
    divideAtT cb 0 = .ok (linear, cb) ∧
    divideAtT cb 1 = .ok (cb, linear) := by
  have hc := clone_ok cb hv
  refine ⟨?_, ?_, ?_⟩
  · intro t ht
    have hcond : t < 0 ∨ t > 1 := ht
    simp only [divideAtT, if_pos hcond]
  · simp [divideAtT, hc]
  · simp [divideAtT, hc]

theorem claim_C8_w : divideAtT linear 0 = .ok (linear, linear) :=
  (claim_C8 linear (by norm_num [ValidCurve, linear])).2.1

lemma divideAtT_ok_valid {cb : CubicBezier} {t : ℚ} {l r : CubicBezier}
    (hv : ValidCurve cb) (h : divideAtT cb t = .ok (l, r)) :
    ValidCurve l ∧ ValidCurve r := by
  have hlin : ValidCurve linear := by norm_num [ValidCurve, linear]
  unfold divideAtT at h
  by_cases hr : t < 0 ∨ t > 1
  · rw [if_pos hr] at h
    exact absurd h (by simp)
  rw [if_neg hr] at h
  by_cases hb : t = 0 ∨ t = 1
  · rw [if_pos hb, clone_ok cb hv] at h
    dsimp only at h
    by_cases ht0 : t = 0
    · rw [if_pos ht0] at h
      simp only [Except.ok.injEq, Prod.mk.injEq] at h
      obtain ⟨rfl, rfl⟩ := h
      exact ⟨hlin, hv⟩
    · rw [if_neg ht0] at h
      simp only [Except.ok.injEq, Prod.mk.injEq] at h
      obtain ⟨rfl, rfl⟩ := h
      exact ⟨hv, hlin⟩
  rw [if_neg hb] at h
  push_neg at hr hb
  have h0 : 0 < t := lt_of_le_of_ne hr.1 (Ne.symm hb.1)
  have h1 : t < 1 := lt_of_le_of_ne hr.2 hb.2
  have hga : getAuxPoints cb t = .ok (auxPoints cb t) := by
    simp [getAuxPoints, h0, h1]
  rw [hga] at h
  dsimp only at h
  split at h
  next eL hL => exact absurd h (by simp)
  next L hL =>
    split at h
    next eR hR => exact absurd h (by simp)
    next R hR =>
      simp only [Except.ok.injEq, Prod.mk.injEq] at h
      obtain ⟨rfl, rfl⟩ := h
      exact ⟨newCubicBezierJS_ok_valid hL, newCubicBezierJS_ok_valid hR⟩

/-- C9 counterexample: `divideAtT` contains no distinct degenerate-curve
error. On a raw input outside the construction invariant whose division
point has kx = 0 (control points (-1/3, -1/3) and (0, 0) at t = 1/2), the
JavaScript quotient i0x / kx is -Infinity and the sub-curve constructor
raises its ordinary OutOfRange for p1x — no degenerate-curve error is
reported. -/
theorem claim_C9_cex :
    (auxPoints ⟨-(1/3), -(1/3), 0, 0⟩ (1/2)).kx = 0 ∧
    divideAtT ⟨-(1/3), -(1/3), 0, 0⟩ (1/2) =
      Except.error (CBError.outOfRange "p1x" JSNum.negInf) := by
  constructor
  · norm_num [auxPoints]
  · norm_num [divideAtT, getAuxPoints, auxPoints, jsDiv, newCubicBezierJS, coordInRange]

/-- C9 amended: for curves satisfying the construction invariant the
degenerate case cannot arise — at every t in (0,1) the division point
coordinates kx, ky avoid 0 and 1 — and any pair of curves subdivision
returns has constructor-validated (finite, in-range) control points; the
code has no distinct degenerate-curve error and needs none on valid
curves. -/
theorem claim_C9_amended (cb : CubicBezier) (t : ℚ) (hv : ValidCurve cb)
    (h0 : 0 < t) (h1 : t < 1) :
    ((auxPoints cb t).kx ≠ 0 ∧ (auxPoints cb t).kx ≠ 1 ∧
     (auxPoints cb t).ky ≠ 0 ∧ (auxPoints cb t).ky ≠ 1) ∧
    (∀ l r, divideAtT cb t = .ok (l, r) → ValidCurve l ∧ ValidCurve r) := by
  obtain ⟨⟨ha, hb⟩, ⟨hc, hd⟩, ⟨he, hf⟩, ⟨hg, hh⟩⟩ := id hv
  have hx := getCoordinateForT_bounds cb.p1x cb.p2x t ha hb he hf h0 h1
  have hy := getCoordinateForT_bounds cb.p1y cb.p2y t hc hd hg hh h0 h1
  rw [← auxPoints_kx_eq] at hx
  rw [← auxPoints_ky_eq] at hy
  exact ⟨⟨ne_of_gt hx.1, ne_of_lt hx.2, ne_of_gt hy.1, ne_of_lt hy.2⟩,
    fun l r h => divideAtT_ok_valid hv h⟩

theorem claim_C9_w : (auxPoints linear (1/2)).kx ≠ 0 :=
  (claim_C9_amended linear (1/2) (by norm_num [ValidCurve, linear])
    (by norm_num) (by norm_num)).1.1

/-- C10: for every curve satisfying the construction invariant and every t
in (0,1), the division point coordinates lie strictly between 0 and 1, so
the four re-normalization divisors kx, ky, 1 - kx, 1 - ky of divideAtT are
all nonzero. -/
theorem claim_C10 (cb : CubicBezier) (t : ℚ) (hv : ValidCurve cb)
    (h0 : 0 < t) (h1 : t < 1) :
    (0 < (auxPoints cb t).kx ∧ (auxPoints cb t).kx < 1 ∧
     0 < (auxPoints cb t).ky ∧ (auxPoints cb t).ky < 1) ∧
    ((auxPoints cb t).kx ≠ 0 ∧ (auxPoints cb t).ky ≠ 0 ∧
     1 - (auxPoints cb t).kx ≠ 0 ∧ 1 - (auxPoints cb t).ky ≠ 0) := by
  obtain ⟨⟨ha, hb⟩, ⟨hc, hd⟩, ⟨he, hf⟩, ⟨hg, hh⟩⟩ := id hv
  have hx := getCoordinateForT_bounds cb.p1x cb.p2x t ha hb he hf h0 h1
  have hy := getCoordinateForT_bounds cb.p1y cb.p2y t hc hd hg hh h0 h1
  rw [← auxPoints_kx_eq] at hx
  rw [← auxPoints_ky_eq] at hy
  refine ⟨⟨hx.1, hx.2, hy.1, hy.2⟩,
    ⟨ne_of_gt hx.1, ne_of_gt hy.1, ?_, ?_⟩⟩
  · exact sub_ne_zero.mpr (ne_of_lt hx.2).symm
  · exact sub_ne_zero.mpr (ne_of_lt hy.2).symm

theorem claim_C10_w : 0 < (auxPoints linear (1/2)).kx :=
  (claim_C10 linear (1/2) (by norm_num [ValidCurve, linear])
    (by norm_num) (by norm_num)).1.1

end CssBeziers
